import Mathlib

/-!
Verification of the ThreadingTest benchmark (src/ThreadingTest.cpp).

The C++ program holds one fixed table of ten signed 64-bit counters
(`std::array<int64_t, 10> data_` in class `Database`) behind four locking
variants, shuffles per-thread access orders with `std::mt19937`, and checks a
zero-sum invariant after a fleet of updater and reader threads joins.

The embedding below translates the data model and the sequential meaning of
each operation.  Cells are mathematical integers: `int64_t` addition overflow
is undefined behaviour in C++, so defined executions stay inside the 64-bit
range and `Int` models them exactly.  The narrowing that `readValue` performs
(it returns `int` while the cell is `int64_t`) is modelled explicitly by
`toInt32`, since that conversion is value-changing and well-defined (modular).
-/

/-- Constant `Database::DATABASE_SIZE = 10`. -/
def DATABASE_SIZE : Nat := 10

/-- Conversion of a signed 64-bit value to signed 32-bit `int`, as performed by
the `return data_.at(index);` statement of `Database::readValue`, whose return
type is `int` while `data_` stores `int64_t`.  The conversion is modular into
`[-2^31, 2^31)`. -/
def toInt32 (x : Int) : Int := (x + 2 ^ 31) % 2 ^ 32 - 2 ^ 31

/-- The error raised by `std::array::at` on an out-of-range index
(`std::out_of_range`), the only failure the table operations can raise. -/
inductive DBError where
  | outOfBounds
deriving DecidableEq

/-- The table of class `Database`: `std::array<int64_t, DATABASE_SIZE> data_`.
The `size_ok` field records the fixed extent of the `std::array`. -/
structure Database where
  data_ : Array Int
  size_ok : data_.size = DATABASE_SIZE

/-- The `Database` constructor: `std::fill(data_.begin(), data_.end(), 0)`. -/
def Database.new : Database :=
  ⟨Array.mkArray DATABASE_SIZE 0, by simp⟩

/-- Member `int Database::readValue(size_t index) const`: after a 1 ms sleep (no
observable state effect), returns `data_.at(index)`; `at` throws on an
out-of-range index.  The `int` return type narrows the stored `int64_t`,
hence the `toInt32`. -/
def Database.readValue (db : Database) (index : Nat) : Except DBError Int :=
  if h : index < db.data_.size then
    .ok (toInt32 db.data_[index])
  else
    .error .outOfBounds

/-- Member `void Database::updateValue(size_t index, int64_t value)`: after a 5 ms
sleep, performs `data_.at(index) += value`; `at` throws before any write when
the index is out of range. -/
def Database.updateValue (db : Database) (index : Nat) (value : Int) :
    Except DBError Database :=
  if h : index < db.data_.size then
    .ok ⟨db.data_.set ⟨index, h⟩ (db.data_[index] + value),
         by rw [Array.size_set]; exact db.size_ok⟩
  else
    .error .outOfBounds

/-- Member `bool Database::isAllZero()`: `std::all_of` over the cells, comparing each
with 0.  The member reads the array and writes nothing. -/
def Database.isAllZero (db : Database) : Bool :=
  db.data_.all (fun x => x == 0)

/-- The cell value at index `j` (0 outside the array, which has no cells
there). -/
def Database.cell (db : Database) (j : Nat) : Int :=
  db.data_.getD j 0

/-- The shared table after a `readValue` call returns or throws: `readValue`
is a `const` member and performs no write, so the table is the one the call
started from. -/
def Database.tableAfterRead (db : Database) (_index : Nat) : Database := db

/-- The shared table after an `isAllZero` call: the member only reads through
`std::all_of`. -/
def Database.tableAfterIsAllZero (db : Database) : Database := db

/-- The shared table after an `updateValue` call returns or throws: on success
the updated table; on `std::out_of_range` the table is untouched, because
`data_.at(index)` throws before the `+=` writes anything. -/
def Database.tableAfterUpdate (db : Database) (index : Nat) (value : Int) :
    Database :=
  match db.updateValue index value with
  | .ok db2 => db2
  | .error _ => db

theorem Database.ext_data {d1 d2 : Database} (h : d1.data_ = d2.data_) :
    d1 = d2 := by
  cases d1; cases d2; cases h; rfl

theorem Database.cell_eq_getElem (db : Database) (j : Nat)
    (h : j < db.data_.size) : db.cell j = db.data_[j] := by
  simp [Database.cell, Array.getD, h]

theorem Database.updateValue_ok (db : Database) (index : Nat) (value : Int)
    (h : index < DATABASE_SIZE) :
    ∃ db2, db.updateValue index value = .ok db2 ∧
      db2.cell index = db.cell index + value ∧
      (∀ j, j ≠ index → db2.cell j = db.cell j) := by
  have hs : index < db.data_.size := by rw [db.size_ok]; exact h
  refine ⟨⟨db.data_.set ⟨index, hs⟩ (db.data_[index] + value), ?_⟩, ?_, ?_, ?_⟩
  · rw [Array.size_set]; exact db.size_ok
  · rw [Database.updateValue, dif_pos hs]
  · rw [Database.cell_eq_getElem _ _ (by simp [hs]),
        Database.cell_eq_getElem _ _ hs]
    simp [Array.get_set_eq db.data_ ⟨index, hs⟩ (db.data_[index] + value)]
  · intro j hj
    by_cases hjs : j < db.data_.size
    · rw [Database.cell_eq_getElem _ _ (by simp [hjs]),
          Database.cell_eq_getElem _ _ hjs]
      rw [Array.get_set db.data_ ⟨index, hs⟩ j hjs]
      simp [Ne.symm hj]
    · simp only [Database.cell, Array.getD]
      rw [dif_neg (by simpa using hjs), dif_neg hjs]

theorem Database.readValue_err (db : Database) (index : Nat)
    (h : DATABASE_SIZE ≤ index) :
    db.readValue index = .error .outOfBounds := by
  rw [Database.readValue, dif_neg]
  rw [db.size_ok]; omega

theorem Database.updateValue_err (db : Database) (index : Nat) (value : Int)
    (h : DATABASE_SIZE ≤ index) :
    db.updateValue index value = .error .outOfBounds := by
  rw [Database.updateValue, dif_neg]
  rw [db.size_ok]; omega

example : Database.new.isAllZero = true := by decide
example : Database.new.readValue 3 = .ok 0 := by rfl
example : Database.new.readValue 10 = .error .outOfBounds := by rfl

/-! ### The `std::mt19937` engine and `std::shuffle`

`getIndicesInShuffledOrder` fills an array with `0..9` (`std::iota`), seeds a
fresh `std::mt19937` from its argument, and shuffles with `std::shuffle`.  The
engine below is the standard 32-bit Mersenne Twister (state size 624, shift
397, the standard seeding recurrence and tempering). -/

/-- Mersenne Twister state size `n = 624`. -/
def mtStateSize : Nat := 624

/-- Mersenne Twister middle word offset `m = 397`. -/
def mtShift : Nat := 397

/-- One step of the standard `mt19937` seeding recurrence:
`mt[i] = (1812433253 * (mt[i-1] xor (mt[i-1] >> 30)) + i) mod 2^32`. -/
def mtInitStep (prev i : Nat) : Nat :=
  (1812433253 * (prev ^^^ (prev >>> 30)) + i) % 2 ^ 32

/-- The seeded initial state array of `std::mt19937(seed)`. -/
def mtInit (seed : Nat) : Array Nat :=
  let first := seed % 2 ^ 32
  ((List.range (mtStateSize - 1)).foldl
    (fun (p : Array Nat × Nat) i =>
      let next := mtInitStep p.2 (i + 1)
      (p.1.push next, next))
    (#[first], first)).1

/-- The `mt19937` tempering transform applied to each extracted word. -/
def mtTemper (x : Nat) : Nat :=
  let y1 := x ^^^ (x >>> 11)
  let y2 := (y1 ^^^ ((y1 <<< 7) &&& 0x9d2c5680)) % 2 ^ 32
  let y3 := (y2 ^^^ ((y2 <<< 15) &&& 0xefc60000)) % 2 ^ 32
  y3 ^^^ (y3 >>> 18)

/-- One word of the `mt19937` twist: combine the high bit of `cur` with the
low bits of `next`, mix with the word `shift` places ahead, and conditionally
xor the twist constant. -/
def mtTwistOne (cur next far : Nat) : Nat :=
  let y := (cur &&& 0x80000000) ||| (next &&& 0x7fffffff)
  (far ^^^ (y >>> 1)) ^^^ (if y % 2 = 1 then 0x9908b0df else 0)

/-- The full-state `mt19937` twist, regenerating all 624 words in place. -/
def mtTwist (mt : Array Nat) : Array Nat :=
  (List.range mtStateSize).foldl
    (fun a i =>
      a.setD i (mtTwistOne (a.getD i 0) (a.getD ((i + 1) % mtStateSize) 0)
        (a.getD ((i + mtShift) % mtStateSize) 0)))
    mt

/-- A `std::mt19937` engine value: the 624-word state and the position of the
next word to extract. -/
structure MT where
  state : Array Nat
  idx : Nat

/-- Construction `std::mt19937 engine(seed)`: the C++ `int` seed is converted to the
result type `uint32_t` of the engine (modular), then the state is seeded. -/
def mtFresh (seed : Int) : MT :=
  ⟨mtInit (seed.emod (2 ^ 32)).toNat, mtStateSize⟩

/-- Extraction `engine()`: extract one tempered word, twisting first when the state is
exhausted. -/
def mtNext (g : MT) : Nat × MT :=
  if g.idx ≥ mtStateSize then
    let m := mtTwist g.state
    (mtTemper (m.getD 0 0), ⟨m, 1⟩)
  else
    (mtTemper (g.state.getD g.idx 0), ⟨g.state, g.idx + 1⟩)

/-- Exchange of the elements at positions `i` and `j`, the elementary step of
the Fisher–Yates pass of `std::shuffle` (`std::iter_swap`). -/
def listSwap (l : List Nat) (i j : Nat) : List Nat :=
  (l.set i (l.getD j 0)).set j (l.getD i 0)

/-- The positions visited by the Fisher–Yates pass over a sequence of length
`n`: `n-1, n-2, …, 1`. -/
def fisherYatesSteps (n : Nat) : List Nat :=
  (List.range (n - 1)).map (fun k => n - 1 - k)

/-- Call `std::shuffle(first, last, engine)`, modelled as the canonical
Fisher–Yates pass: at position `i` (descending from `n-1` to `1`) the element
is exchanged with the one at a position in `[0, i]` selected from the next
engine word.  The standard leaves the mapping of engine words to positions
implementation-defined; the target position of each step is modelled as the raw
word reduced mod `i+1`, and every property proved below holds for every
choice of in-range target positions. -/
def shuffleWith (g : MT) (l : List Nat) : List Nat :=
  ((fisherYatesSteps l.length).foldl
    (fun (p : List Nat × MT) i =>
      let r := mtNext p.2
      (listSwap p.1 (r.1 % (i + 1)) i, r.2))
    (l, g)).1

/-- Function `getIndicesInShuffledOrder(int seed)`: `std::iota` over an array of
`DATABASE_SIZE` indices, then `std::shuffle` with a fresh `std::mt19937`
seeded from `seed`. -/
def getIndicesInShuffledOrder (seed : Int) : List Nat :=
  shuffleWith (mtFresh seed) (List.range DATABASE_SIZE)

theorem listSwap_length (l : List Nat) (i j : Nat) :
    (listSwap l i j).length = l.length := by
  simp [listSwap]

theorem listSwap_perm (l : List Nat) (i j : Nat) (hi : i < l.length)
    (hj : j < l.length) : (listSwap l i j).Perm l := by
  rw [List.perm_iff_count]
  intro x
  unfold listSwap
  rw [List.getD_eq_getElem l 0 hi, List.getD_eq_getElem l 0 hj]
  have hj1 : j < (l.set i l[j]).length := by simp [hj]
  have h1 := List.count_set l[j] x l i hi
  have h2 := List.count_set l[i] x (l.set i l[j]) j hj1
  have hset_j : (l.set i l[j])[j] = l[j] := by
    rw [List.getElem_set]
    split <;> rfl
  rw [hset_j] at h2
  simp only [beq_iff_eq] at h1 h2
  have m1 : (if l[i] = x then 1 else 0) ≤ l.count x := by
    by_cases hP : l[i] = x
    · simp only [hP, if_true]
      exact List.count_pos_iff.mpr (hP ▸ List.getElem_mem hi)
    · simp [hP]
  generalize hn2 : ((l.set i l[j]).set j l[i]).count x = n2 at h2
  generalize hn1 : (l.set i l[j]).count x = n1 at h1 h2
  generalize hn0 : l.count x = n0 at h1 m1
  by_cases e1 : l[i] = x <;> by_cases e2 : l[j] = x <;>
    simp only [e1, e2, if_true, if_false] at h1 h2 m1 <;> omega

theorem shuffleWith_foldl_perm (steps : List Nat) (g : MT) (l : List Nat)
    (h : ∀ i ∈ steps, i < l.length) :
    (steps.foldl
      (fun (p : List Nat × MT) i =>
        let r := mtNext p.2
        (listSwap p.1 (r.1 % (i + 1)) i, r.2))
      (l, g)).1.Perm l := by
  induction steps generalizing l g with
  | nil => simp
  | cons a rest ih =>
    simp only [List.foldl_cons]
    have ha : a < l.length := h a (List.mem_cons_self a rest)
    have hja : (mtNext g).1 % (a + 1) < l.length := by
      have := Nat.mod_lt (mtNext g).1 (show 0 < a + 1 by omega)
      omega
    have hswap := listSwap_perm l ((mtNext g).1 % (a + 1)) a hja ha
    refine List.Perm.trans (ih (mtNext g).2 _ ?_) hswap
    intro i hi
    rw [listSwap_length]
    exact h i (List.mem_cons_of_mem a hi)

theorem getIndicesInShuffledOrder_perm (seed : Int) :
    (getIndicesInShuffledOrder seed).Perm (List.range DATABASE_SIZE) := by
  unfold getIndicesInShuffledOrder shuffleWith
  apply shuffleWith_foldl_perm
  intro i hi
  simp only [fisherYatesSteps, List.mem_map, List.mem_range,
    List.length_range] at hi
  obtain ⟨k, hk, rfl⟩ := hi
  simp only [List.length_range, DATABASE_SIZE] at hk ⊢
  omega

theorem getIndicesInShuffledOrder_length (seed : Int) :
    (getIndicesInShuffledOrder seed).length = DATABASE_SIZE := by
  rw [(getIndicesInShuffledOrder_perm seed).length_eq, List.length_range]

theorem getIndicesInShuffledOrder_count (seed : Int) (j : Nat)
    (h : j < DATABASE_SIZE) : (getIndicesInShuffledOrder seed).count j = 1 := by
  rw [(getIndicesInShuffledOrder_perm seed).count_eq]
  exact List.count_eq_one_of_mem (List.nodup_range _) (List.mem_range.mpr h)

/-! ### The workload driver and the zero-sum invariant

`updateAllInRandomOrder(database, value, seed)` calls
`database.updateValue(i, value)` for each `i` of the shuffled order, pausing
10 ms after each call.  An updater thread of `testDatabase` runs three such
passes with deltas `+25`, `-40`, `+15`; the harness spawns 100 updater
threads.  The sleeps have no state effect; what each thread contributes to
the shared table is its list of single-cell additive updates. -/

/-- Sequential application of a list of single-cell updates `(index, delta)`
to the table, one `updateValue` call each; an exception aborts the rest. -/
def applyUpdates : List (Nat × Int) → Database → Except DBError Database
  | [], db => .ok db
  | u :: rest, db =>
    match db.updateValue u.1 u.2 with
    | .ok db2 => applyUpdates rest db2
    | .error e => .error e

/-- The net delta a list of updates applies to cell `j`. -/
def sumAt (l : List (Nat × Int)) (j : Nat) : Int :=
  ((l.filter (fun u => u.1 == j)).map Prod.snd).sum

/-- The update list of one `updateAllInRandomOrder(database, value, seed)`
call: `updateValue(i, value)` for each `i` in the shuffled order of `seed`. -/
def updateAllInRandomOrder (value : Int) (seed : Int) : List (Nat × Int) :=
  (getIndicesInShuffledOrder seed).map (fun i => (i, value))

/-- The update list of one updater thread: the `+25`, `-40`, `+15` passes.
The thread reads `threads.size()` once per pass, so the three passes may see
three different seeds. -/
def updaterUpdates (seeds : Int × Int × Int) : List (Nat × Int) :=
  updateAllInRandomOrder 25 seeds.1 ++
    updateAllInRandomOrder (-40) seeds.2.1 ++
    updateAllInRandomOrder 15 seeds.2.2

/-- The number of updater threads spawned by `testDatabase`. -/
def updaterThreadCount : Nat := 100

/-- The combined update list of the 100 updater threads, each with its own
(arbitrary) observed seeds. -/
def updaterWorkload (seeds : Nat → Int × Int × Int) : List (Nat × Int) :=
  (List.range updaterThreadCount).flatMap (fun u => updaterUpdates (seeds u))

theorem sumAt_nil (j : Nat) : sumAt [] j = 0 := rfl

theorem sumAt_cons (u : Nat × Int) (l : List (Nat × Int)) (j : Nat) :
    sumAt (u :: l) j = (if u.1 = j then u.2 else 0) + sumAt l j := by
  by_cases h : u.1 = j <;> simp [sumAt, List.filter_cons, h]

theorem sumAt_append (l1 l2 : List (Nat × Int)) (j : Nat) :
    sumAt (l1 ++ l2) j = sumAt l1 j + sumAt l2 j := by
  simp [sumAt, List.filter_append]

theorem sumAt_perm {l1 l2 : List (Nat × Int)} (h : l1.Perm l2) (j : Nat) :
    sumAt l1 j = sumAt l2 j :=
  List.Perm.sum_eq (List.Perm.map Prod.snd (List.Perm.filter _ h))

theorem sumAt_map_const (xs : List Nat) (d : Int) (j : Nat) :
    sumAt (xs.map (fun i => (i, d))) j = d * xs.count j := by
  induction xs with
  | nil => simp [sumAt]
  | cons a xs ih =>
    rw [List.map_cons, sumAt_cons, ih, List.count_cons]
    by_cases h : a = j <;> (simp [h]; try ring)

theorem sumAt_updateAll (value seed : Int) (j : Nat) (h : j < DATABASE_SIZE) :
    sumAt (updateAllInRandomOrder value seed) j = value := by
  rw [updateAllInRandomOrder, sumAt_map_const,
    getIndicesInShuffledOrder_count seed j h]
  simp

theorem sumAt_updater (seeds : Int × Int × Int) (j : Nat)
    (h : j < DATABASE_SIZE) : sumAt (updaterUpdates seeds) j = 0 := by
  rw [updaterUpdates, sumAt_append, sumAt_append,
    sumAt_updateAll _ _ _ h, sumAt_updateAll _ _ _ h, sumAt_updateAll _ _ _ h]
  norm_num

theorem sumAt_bind_zero (xs : List Nat) (f : Nat → List (Nat × Int)) (j : Nat)
    (h : ∀ x ∈ xs, sumAt (f x) j = 0) : sumAt (xs.flatMap f) j = 0 := by
  induction xs with
  | nil => simp [sumAt]
  | cons a xs ih =>
    rw [List.flatMap_cons, sumAt_append, h a (List.mem_cons_self a xs),
      ih (fun x hx => h x (List.mem_cons_of_mem a hx))]
    norm_num

theorem sumAt_workload (seeds : Nat → Int × Int × Int) (j : Nat)
    (h : j < DATABASE_SIZE) : sumAt (updaterWorkload seeds) j = 0 :=
  sumAt_bind_zero _ _ _ (fun x _ => sumAt_updater (seeds x) j h)

theorem mem_updateAll_lt (value seed : Int) (u : Nat × Int)
    (h : u ∈ updateAllInRandomOrder value seed) : u.1 < DATABASE_SIZE := by
  rw [updateAllInRandomOrder, List.mem_map] at h
  obtain ⟨i, hi, rfl⟩ := h
  have := ((getIndicesInShuffledOrder_perm seed).mem_iff).mp hi
  exact List.mem_range.mp this

theorem mem_updaterWorkload_lt (seeds : Nat → Int × Int × Int)
    (u : Nat × Int) (h : u ∈ updaterWorkload seeds) : u.1 < DATABASE_SIZE := by
  rw [updaterWorkload, List.mem_flatMap] at h
  obtain ⟨x, _, hx⟩ := h
  rw [updaterUpdates, List.mem_append, List.mem_append] at hx
  rcases hx with (hx | hx) | hx <;> exact mem_updateAll_lt _ _ _ hx

theorem applyUpdates_ok : ∀ (l : List (Nat × Int)) (db : Database),
    (∀ u ∈ l, u.1 < DATABASE_SIZE) →
    ∃ db2, applyUpdates l db = .ok db2 ∧
      ∀ j, db2.cell j = db.cell j + sumAt l j
  | [], db, _ => ⟨db, rfl, fun j => by rw [sumAt_nil]; ring⟩
  | u :: rest, db, h => by
    obtain ⟨db1, hup, hcell_i, hcell_ne⟩ :=
      db.updateValue_ok u.1 u.2 (h u (List.mem_cons_self u rest))
    obtain ⟨db2, happ, hcells⟩ :=
      applyUpdates_ok rest db1 (fun v hv => h v (List.mem_cons_of_mem u hv))
    refine ⟨db2, ?_, ?_⟩
    · rw [applyUpdates, hup]
      exact happ
    · intro j
      rw [hcells j, sumAt_cons]
      by_cases hj : u.1 = j
      · rw [hj] at hcell_i
        rw [hcell_i, if_pos hj]
        ring
      · rw [hcell_ne j (fun e => hj e.symm), if_neg hj]
        ring

theorem Database.new_cell (j : Nat) : Database.new.cell j = 0 := by
  by_cases h : j < DATABASE_SIZE
  · rw [Database.cell_eq_getElem _ _ (by simpa [Database.new] using h)]
    simp [Database.new]
  · simp only [Database.cell, Database.new, Array.getD]
    rw [dif_neg (by simpa using h)]

theorem Database.isAllZero_of_cells (db : Database)
    (h : ∀ j, db.cell j = 0) : db.isAllZero = true := by
  rw [Database.isAllZero, Array.all_eq_true]
  intro i
  have := h i.val
  rw [Database.cell_eq_getElem _ _ i.isLt] at this
  simpa using this

/-! ### The locking variants

The three synchronized classes wrap the baseline: each operation acquires its
lock by scoped guard for the whole duration of the delegated base call.  The
guards serialize the delegated calls as described in each doc comment; what a
delegated call does to the table is the base operation. -/

/-- Constant `Database::DATABASE_TYPE`. -/
def Database.DATABASE_TYPE : String := "non-threadsafe database"

/-- Member `SingleMutexDatabase::readValue`: `std::lock_guard<std::mutex>` on
`mutex_`, then `Database::readValue`. -/
def SingleMutexDatabase.readValue (db : Database) (index : Nat) :
    Except DBError Int :=
  Database.readValue db index

/-- Member `SingleMutexDatabase::updateValue`: `std::lock_guard<std::mutex>` on
`mutex_`, then `Database::updateValue`. -/
def SingleMutexDatabase.updateValue (db : Database) (index : Nat)
    (value : Int) : Except DBError Database :=
  Database.updateValue db index value

/-- Constant `SingleMutexDatabase::DATABASE_TYPE`. -/
def SingleMutexDatabase.DATABASE_TYPE : String := "single mutex database"

/-- Member `SharedMutexDatabase::readValue`: `std::shared_lock` on `shared_mutex_`
(shared mode), then `Database::readValue`. -/
def SharedMutexDatabase.readValue (db : Database) (index : Nat) :
    Except DBError Int :=
  Database.readValue db index

/-- Member `SharedMutexDatabase::updateValue`: `std::unique_lock` on `shared_mutex_`
(exclusive mode), then `Database::updateValue`. -/
def SharedMutexDatabase.updateValue (db : Database) (index : Nat)
    (value : Int) : Except DBError Database :=
  Database.updateValue db index value

/-- Constant `SharedMutexDatabase::DATABASE_TYPE`. -/
def SharedMutexDatabase.DATABASE_TYPE : String := "shared mutex database"

/-- The lock array extent of `SplitMutexDatabase`:
`std::array<std::mutex, DATABASE_SIZE / 2> mutexes_`. -/
def SplitMutexDatabase.mutexCount : Nat := DATABASE_SIZE / 2

/-- The lock `SplitMutexDatabase` acquires for an operation on cell `index`:
`mutexes_[index % mutexes_.size()]`. -/
def SplitMutexDatabase.lockIndex (index : Nat) : Nat :=
  index % SplitMutexDatabase.mutexCount

/-- Member `SplitMutexDatabase::readValue`: `std::lock_guard` on the shard lock of
`index`, then `Database::readValue`.  The pair records which lock the call
acquires alongside the delegated result. -/
def SplitMutexDatabase.readValue (db : Database) (index : Nat) :
    Nat × Except DBError Int :=
  (SplitMutexDatabase.lockIndex index, Database.readValue db index)

/-- Member `SplitMutexDatabase::updateValue`: `std::lock_guard` on the shard lock of
`index`, then `Database::updateValue`. -/
def SplitMutexDatabase.updateValue (db : Database) (index : Nat)
    (value : Int) : Nat × Except DBError Database :=
  (SplitMutexDatabase.lockIndex index, Database.updateValue db index value)

/-- Constant `SplitMutexDatabase::DATABASE_TYPE`. -/
def SplitMutexDatabase.DATABASE_TYPE : String := "split mutex database"

/-! ### The harness output -/

/-- Printer `operator<<(std::ostream&, const Database&)`: every cell followed by one
space. -/
def databaseContents (db : Database) : String :=
  db.data_.foldl (fun s x => s ++ toString x ++ " ") ""

/-- The elapsed-time line of a result block: the label field, the
millisecond count, then the literal `ms` — the source writes
`<< ... .count() << "ms\n"`, with no space between the integer and `ms`. -/
def elapsedTimeLine (elapsedMs : Nat) : String :=
  "  Elapsed Time:      " ++ toString elapsedMs ++ "ms\n"

/-- The block `testDatabase` prints for one variant (the trailing
`std::endl` is a newline plus flush). -/
def testDatabaseOutput (dbType : String) (elapsedMs : Nat) (db : Database) :
    String :=
  "Results for " ++ dbType ++ ":\n" ++
    elapsedTimeLine elapsedMs ++
    "  Database Contents: " ++ databaseContents db ++ "\n" ++
    "  All Zero:          " ++
    (if db.isAllZero then "Pass" else "FAILED!!!") ++ "\n"

/-- The standard output of `main`: `testDatabase` for the four variants in
declaration order.  Elapsed times and final tables are run-dependent, so they
are parameters. -/
def mainOutput (e1 e2 e3 e4 : Nat) (d1 d2 d3 d4 : Database) : String :=
  testDatabaseOutput Database.DATABASE_TYPE e1 d1 ++
    testDatabaseOutput SingleMutexDatabase.DATABASE_TYPE e2 d2 ++
    testDatabaseOutput SharedMutexDatabase.DATABASE_TYPE e3 d3 ++
    testDatabaseOutput SplitMutexDatabase.DATABASE_TYPE e4 d4

/-! ### The spawn loop and the seeds the workers observe

`testDatabase` spawns 100 updater threads and then 1000 reader threads.  Every
worker lambda captures `threads` by reference and passes `threads.size()` as
the seed argument — evaluated when the worker body RUNS, not when the thread
is spawned.  The value read therefore depends on how the worker bodies
interleave with the spawn loops.  Modelling each `emplace_back` as one atomic
step, a read by worker `i` can observe any vector size from `i` (the workers
spawned before it are already stored) up to the full 1100. -/

/-- The worker fleet of one `testDatabase` run: 100 updaters, 1000 readers. -/
def totalThreadCount : Nat := 1100

/-- Schedule-dependent seed reads of one run: `sizeSeen i c` is the value of
`threads.size()` that worker `i` (in spawn order) observes at its `c`-th
order-generator call (updaters call the generator three times, readers once).
Any function within the bounds is a possible schedule. -/
structure SpawnExecution where
  sizeSeen : Nat → Nat → Nat
  seen_ge : ∀ i c, i < totalThreadCount → i ≤ sizeSeen i c
  seen_le : ∀ i c, i < totalThreadCount → sizeSeen i c ≤ totalThreadCount

/-- The seed worker `i` passes to `getIndicesInShuffledOrder` at its `c`-th
generator call (the C++ `size_t` value converted to the `int` seed
parameter). -/
def seedPassed (e : SpawnExecution) (i c : Nat) : Int :=
  (e.sizeSeen i c : Int)

/-- The claimed seed policy: the generator seed of every worker equals the number
of threads already created when that worker was spawned, i.e. its spawn
index. -/
def claimedSeedPolicy : Prop :=
  ∀ (e : SpawnExecution) (i c : Nat), i < totalThreadCount →
    seedPassed e i c = i

/-- The schedule in which every worker body runs only after both spawn loops
finish: every read observes the full vector. -/
def lateSchedule : SpawnExecution :=
  ⟨fun _ _ => totalThreadCount, fun _ _ h => Nat.le_of_lt h,
   fun _ _ _ => Nat.le_refl _⟩

/-- The schedule in which each worker body reads immediately on spawn,
observing only the workers spawned before it. -/
def earlySchedule : SpawnExecution :=
  ⟨fun i _ => i, fun _ _ _ => Nat.le_refl _, fun _ _ h => Nat.le_of_lt h⟩

/-! ### Remaining helper lemmas -/

theorem sumAt_eq_zero_of_all_ne (l : List (Nat × Int)) (j : Nat)
    (h : ∀ u ∈ l, u.1 ≠ j) : sumAt l j = 0 := by
  rw [sumAt, List.filter_eq_nil_iff.mpr (fun u hu => by simp [h u hu])]
  rfl

theorem Database.ext_cell (d1 d2 : Database)
    (h : ∀ j, d1.cell j = d2.cell j) : d1 = d2 := by
  apply Database.ext_data
  apply Array.ext d1.data_ d2.data_ (by rw [d1.size_ok, d2.size_ok])
  intro j hj1 hj2
  have hc := h j
  rw [d1.cell_eq_getElem j hj1, d2.cell_eq_getElem j hj2] at hc
  exact hc

/-! ### The claims -/

/-- C1: For every synchronized variant (Single-Mutex, Reader–Writer,
Sharded) — whose update operations all perform the base `Database` update
under their locks, as the first three conjuncts record — the combined
multiset of single-cell additive updates (100 updater threads, each applying
`+25`, `-40`, `+15` to every cell, with arbitrary observed seeds), applied
sequentially in any order to a fresh zero table, succeeds and leaves
`isAllZero()` true. -/
theorem C1_workload_any_order_all_zero :
    (∀ db i v, SingleMutexDatabase.updateValue db i v =
      Database.updateValue db i v) ∧
    (∀ db i v, SharedMutexDatabase.updateValue db i v =
      Database.updateValue db i v) ∧
    (∀ db i v, (SplitMutexDatabase.updateValue db i v).2 =
      Database.updateValue db i v) ∧
    ∀ (seeds : Nat → Int × Int × Int) (l : List (Nat × Int)),
      l.Perm (updaterWorkload seeds) →
      ∃ db2, applyUpdates l Database.new = .ok db2 ∧ db2.isAllZero = true := by
  refine ⟨fun _ _ _ => rfl, fun _ _ _ => rfl, fun _ _ _ => rfl, ?_⟩
  intro seeds l hperm
  have hmem : ∀ u ∈ l, u.1 < DATABASE_SIZE := fun u hu =>
    mem_updaterWorkload_lt seeds u (hperm.mem_iff.mp hu)
  obtain ⟨db2, happ, hcells⟩ := applyUpdates_ok l Database.new hmem
  refine ⟨db2, happ, db2.isAllZero_of_cells ?_⟩
  intro j
  rw [hcells j, Database.new_cell, sumAt_perm hperm j]
  by_cases hj : j < DATABASE_SIZE
  · rw [sumAt_workload seeds j hj]; ring
  · rw [sumAt_eq_zero_of_all_ne _ j (fun u hu => by
      have := mem_updaterWorkload_lt seeds u hu
      omega)]
    ring

/-- Witness for C1 at a concrete seed assignment: the workload list itself is
one of the permitted orders. -/
theorem C1_workload_any_order_all_zero_witness :
    ∃ db2, applyUpdates (updaterWorkload (fun _ => (0, 0, 0)))
        Database.new = .ok db2 ∧ db2.isAllZero = true :=
  C1_workload_any_order_all_zero.2.2.2 (fun _ => (0, 0, 0)) _
    (List.Perm.refl _)

/-- C2: for every seed, `getIndicesInShuffledOrder(seed)` has length
exactly 10 and is a permutation of `{0,…,9}`: each index below 10 occurs
exactly once. -/
theorem C2_shuffled_order_is_permutation (seed : Int) :
    (getIndicesInShuffledOrder seed).length = 10 ∧
    (getIndicesInShuffledOrder seed).Perm (List.range 10) ∧
    ∀ j, j < 10 → (getIndicesInShuffledOrder seed).count j = 1 :=
  ⟨getIndicesInShuffledOrder_length seed, getIndicesInShuffledOrder_perm seed,
   fun j hj => getIndicesInShuffledOrder_count seed j hj⟩

/-- Witness for C2 at seed 7, index 3. -/
theorem C2_shuffled_order_is_permutation_witness :
    (getIndicesInShuffledOrder 7).count 3 = 1 :=
  (C2_shuffled_order_is_permutation 7).2.2 3 (by decide)

/-- C3: for every index not in `[0, 10)` and every table state,
`readValue` and `updateValue` fail with the OutOfBounds error and the failing
operation leaves the table unchanged. -/
theorem C3_out_of_bounds_error (db : Database) (index : Nat) (value : Int)
    (h : DATABASE_SIZE ≤ index) :
    db.readValue index = .error .outOfBounds ∧
    db.updateValue index value = .error .outOfBounds ∧
    db.tableAfterRead index = db ∧
    db.tableAfterUpdate index value = db :=
  ⟨db.readValue_err index h, db.updateValue_err index value h, rfl, by
    rw [Database.tableAfterUpdate, db.updateValue_err index value h]⟩

/-- Witness for C3 at index 10 on a fresh table. -/
theorem C3_out_of_bounds_error_witness :
    Database.new.readValue 10 = .error .outOfBounds ∧
    Database.new.updateValue 10 1 = .error .outOfBounds ∧
    Database.new.tableAfterRead 10 = Database.new ∧
    Database.new.tableAfterUpdate 10 1 = Database.new :=
  C3_out_of_bounds_error Database.new 10 1 (by decide)

/-- A table whose cell 0 holds `2^31` — representable in its 64-bit cell and
reachable by `updateValue(0, 2^31)` from a fresh table. -/
def bigCellDatabase : Database :=
  ⟨#[2147483648, 0, 0, 0, 0, 0, 0, 0, 0, 0], by rfl⟩

/-- C4 is false as stated: `readValue` returns C++ `int`, narrowing the
stored `int64_t`.  Cell 0 of `bigCellDatabase` stores `2^31`, but
`readValue(0)` returns `-2^31`, not the stored value. -/
theorem C4_readValue_narrows_counterexample :
    bigCellDatabase.cell 0 = 2147483648 ∧
    bigCellDatabase.readValue 0 = .ok (-2147483648) ∧
    (-2147483648 : Int) ≠ 2147483648 :=
  ⟨rfl, rfl, by decide⟩

/-- C4 (amended): for every in-range index, `readValue` returns the
stored 64-bit cell value narrowed to signed 32-bit `int`; the returned value
equals the full stored value exactly when that value fits in
`[-2^31, 2^31)`. -/
theorem C4_readValue_returns_narrowed_cell (db : Database) (index : Nat)
    (h : index < DATABASE_SIZE) :
    db.readValue index = .ok (toInt32 (db.cell index)) ∧
    (-(2 ^ 31) ≤ db.cell index → db.cell index < 2 ^ 31 →
      db.readValue index = .ok (db.cell index)) := by
  have hs : index < db.data_.size := by rw [db.size_ok]; exact h
  constructor
  · rw [Database.readValue, dif_pos hs, Database.cell_eq_getElem _ _ hs]
  · intro hlo hhi
    rw [Database.readValue, dif_pos hs]
    rw [Database.cell_eq_getElem _ _ hs] at hlo hhi ⊢
    have : toInt32 db.data_[index] = db.data_[index] := by
      rw [toInt32]; omega
    rw [this]

/-- Witness for the amended C4 on a fresh table at index 0, where the stored
value 0 fits in `int`. -/
theorem C4_readValue_returns_narrowed_cell_witness :
    Database.new.readValue 0 = .ok (Database.new.cell 0) :=
  (C4_readValue_returns_narrowed_cell Database.new 0 (by decide)).2
    (by decide) (by decide)

/-- C5 is false as stated: the worker lambdas evaluate `threads.size()`
when they run, not at spawn time.  In the schedule where every worker body
runs after the spawn loops finish, worker 0 passes seed 1100, not its spawn
index 0. -/
theorem C5_seed_policy_counterexample :
    seedPassed lateSchedule 0 0 = 1100 ∧ ¬ claimedSeedPolicy := by
  constructor
  · rfl
  · intro hpol
    have h := hpol lateSchedule 0 0 (by decide)
    rw [show seedPassed lateSchedule 0 0 = 1100 from rfl] at h
    exact absurd h (by decide)

/-- C5 (amended): the seed a worker passes to its order generator is the
thread-vector size observed when the worker body runs: it is schedule
dependent, lies between the spawn index of the worker and the full fleet size
1100, and two schedules can hand the same worker different seeds, so it is
not determined at spawn time. -/
theorem C5_seed_is_runtime_vector_size (e : SpawnExecution) (i c : Nat)
    (h : i < totalThreadCount) :
    (i : Int) ≤ seedPassed e i c ∧
    seedPassed e i c ≤ (totalThreadCount : Int) ∧
    seedPassed lateSchedule i c ≠ seedPassed earlySchedule i c := by
  refine ⟨?_, ?_, ?_⟩
  · rw [seedPassed]; exact_mod_cast e.seen_ge i c h
  · rw [seedPassed]; exact_mod_cast e.seen_le i c h
  · show (totalThreadCount : Int) ≠ (i : Int)
    rw [totalThreadCount] at h ⊢
    omega

/-- Witness for the amended C5: worker 0 under the late schedule. -/
theorem C5_seed_is_runtime_vector_size_witness :
    (0 : Int) ≤ seedPassed lateSchedule 0 0 ∧
    seedPassed lateSchedule 0 0 ≤ (totalThreadCount : Int) ∧
    seedPassed lateSchedule 0 0 ≠ seedPassed earlySchedule 0 0 :=
  C5_seed_is_runtime_vector_size lateSchedule 0 0 (by decide)

/-- C6 is false as stated: the elapsed-time line is the integer directly
followed by `ms` — the source prints `<< ... .count() << "ms\n"` — not an
integer, a space, then `ms`. -/
theorem C6_elapsed_line_counterexample :
    elapsedTimeLine 7 = "  Elapsed Time:      7ms\n" ∧
    elapsedTimeLine 7 ≠ "  Elapsed Time:      7 ms\n" := by
  constructor
  · rfl
  · decide

/-- C6 (amended): the program emits exactly four result blocks in the
fixed order Unlocked, Single-Mutex, Reader–Writer, Sharded, with the exact
variant labels, and the elapsed-time line of each block is
`  Elapsed Time:      <integer>ms` — no space before `ms`. -/
theorem C6_output_four_blocks (e1 e2 e3 e4 : Nat) (d1 d2 d3 d4 : Database) :
    mainOutput e1 e2 e3 e4 d1 d2 d3 d4 =
      testDatabaseOutput "non-threadsafe database" e1 d1 ++
      testDatabaseOutput "single mutex database" e2 d2 ++
      testDatabaseOutput "shared mutex database" e3 d3 ++
      testDatabaseOutput "split mutex database" e4 d4 ∧
    ∀ ms, elapsedTimeLine ms =
      "  Elapsed Time:      " ++ toString ms ++ "ms\n" :=
  ⟨rfl, fun _ => rfl⟩

/-- C7: `getIndicesInShuffledOrder` is pure and deterministic — it is a
function of the seed alone, so equal seeds give identical permutations
across invocations. -/
theorem C7_shuffled_order_deterministic (s1 s2 : Int) (h : s1 = s2) :
    getIndicesInShuffledOrder s1 = getIndicesInShuffledOrder s2 := by
  rw [h]

/-- Witness for C7: two calls with seed 42 return the identical
permutation. -/
theorem C7_shuffled_order_deterministic_witness :
    getIndicesInShuffledOrder 42 = getIndicesInShuffledOrder 42 :=
  C7_shuffled_order_deterministic 42 42 rfl

/-- C8: the Sharded variant owns exactly `⌊10/2⌋ = 5` locks, both
`readValue(i)` and `updateValue(i, v)` acquire lock `i mod 5`, and two
operations on cells `i` and `j` contend on the same lock iff
`i ≡ j (mod 5)`. -/
theorem C8_sharded_lock_assignment (db : Database) (i j : Nat) (v : Int) :
    SplitMutexDatabase.mutexCount = 5 ∧
    (SplitMutexDatabase.readValue db i).1 = i % 5 ∧
    (SplitMutexDatabase.updateValue db i v).1 = i % 5 ∧
    (SplitMutexDatabase.lockIndex i = SplitMutexDatabase.lockIndex j ↔
      i % 5 = j % 5) :=
  ⟨rfl, rfl, rfl, Iff.rfl⟩

/-- C9: `readValue` and `isAllZero` leave every cell unchanged, and for
every in-range index, `updateValue(i, v)` sets cell `i` to its old value plus
`v` and leaves every other cell unchanged. -/
theorem C9_frame_conditions (db : Database) (index : Nat) (value : Int)
    (h : index < DATABASE_SIZE) :
    db.tableAfterRead index = db ∧
    db.tableAfterIsAllZero = db ∧
    (db.tableAfterUpdate index value).cell index = db.cell index + value ∧
    ∀ j, j ≠ index → (db.tableAfterUpdate index value).cell j = db.cell j := by
  obtain ⟨db2, hup, hci, hcne⟩ := db.updateValue_ok index value h
  have ht : db.tableAfterUpdate index value = db2 := by
    rw [Database.tableAfterUpdate, hup]
  exact ⟨rfl, rfl, by rw [ht]; exact hci, fun j hj => by rw [ht]; exact hcne j hj⟩

/-- Witness for C9 on a fresh table: `updateValue(0, 5)` leaves cell 1 alone
and adds 5 to cell 0; reads touch nothing. -/
theorem C9_frame_conditions_witness :
    Database.new.tableAfterRead 0 = Database.new ∧
    Database.new.tableAfterIsAllZero = Database.new ∧
    (Database.new.tableAfterUpdate 0 5).cell 0 = Database.new.cell 0 + 5 ∧
    (Database.new.tableAfterUpdate 0 5).cell 1 = Database.new.cell 1 := by
  have h := C9_frame_conditions Database.new 0 5 (by decide)
  exact ⟨h.1, h.2.1, h.2.2.1, h.2.2.2 1 (by decide)⟩

/-- C10: additive updates round-trip — for every table state, in-range
index and delta, `updateValue(i, d)` followed by `updateValue(i, -d)`
restores the table exactly. -/
theorem C10_update_round_trip (db : Database) (index : Nat) (value : Int)
    (h : index < DATABASE_SIZE) :
    (db.updateValue index value).bind
      (fun db1 => db1.updateValue index (-value)) = .ok db := by
  obtain ⟨db1, h1, hc1, hn1⟩ := db.updateValue_ok index value h
  obtain ⟨db2, h2, hc2, hn2⟩ := db1.updateValue_ok index (-value) h
  rw [h1]
  show db1.updateValue index (-value) = .ok db
  rw [h2]
  have : db2 = db := by
    apply Database.ext_cell
    intro j
    by_cases hj : j = index
    · rw [hj, hc2, hc1]; ring
    · rw [hn2 j hj, hn1 j hj]
  rw [this]

/-- Witness for C10: `+7` then `-7` on cell 0 of a fresh table. -/
theorem C10_update_round_trip_witness :
    (Database.new.updateValue 0 7).bind
      (fun db1 => db1.updateValue 0 (-7)) = .ok Database.new :=
  C10_update_round_trip Database.new 0 7 (by decide)
